import Mathlib

/-!
Verification of the version-aware type registry and recursive resolving
parser of the `sgroups` repository (a typed, schema-driven deserializer
for structured threat-intelligence content).

The repository ships only documentation (two notebooks describing `parse`,
version-locked parsing and per-version custom-type registration); the
implementation itself is not in the tree.  Following the specification,
every component below is therefore modelled from the spec: SpecVersion,
the per-version four-namespace TypeRegistry, registerCustom, the
TypeResolver, the RecursiveBuilder and the parse entry point.
-/

/-- Modelled from the spec: an ordered, finite set of specification-version
identifiers (the notebooks name `v20` and `v21`); exactly one is marked
"latest". -/
inductive SpecVersion : Type where
  | v20
  | v21
  deriving DecidableEq, Repr

/-- Modelled from the spec: the designated "latest" version, used when no
version is explicit. -/
def SpecVersion.latest : SpecVersion := .v21

/-- All available versions (created at process start, immutable). -/
def SpecVersion.all : List SpecVersion := [.v20, .v21]

/-- Modelled from the spec: the four independent type-name namespaces of one
specification version. -/
inductive TypeNamespace : Type where
  | objects
  | observables
  | markings
  | extensions
  deriving DecidableEq, Repr

/-- Modelled from the spec: a declared field's kind — scalar, nested single
object, nested heterogeneous collection, or nested keyed collection.  The
nested kinds carry the namespace hint the RecursiveBuilder passes to the
TypeResolver for that field's elements. -/
inductive FieldKind : Type where
  | scalar
  | nestedObject (hint : TypeNamespace)
  | nestedList (hint : TypeNamespace)
  | nestedKeyedMap (hint : TypeNamespace)
  deriving DecidableEq, Repr

/-- Modelled from the spec: one declared property of an ObjectSchema:
property name, required flag and field kind. -/
structure PropDecl : Type where
  name : String
  required : Bool
  kind : FieldKind
  deriving DecidableEq, Repr

/-- Modelled from the spec: an immutable schema value — type-name string and
ordered list of property declarations. -/
structure ObjectSchema : Type where
  typeName : String
  props : List PropDecl
  deriving DecidableEq, Repr

/-- Modelled from the spec: the generic intermediate tree (mapping /
sequence / scalar) produced by decoding raw input text.  Scalars are kept
abstract as strings (property-level typing is out of scope). -/
inductive ParsedValue : Type where
  | scalar (s : String)
  | seq (elems : List ParsedValue)
  | map (fields : List (String × ParsedValue))

/-- Modelled from the spec: an output node — either a scalar leaf copied
verbatim from the input, a typed object (type name, its SpecVersion, and a
property mapping), a sequence of values, or a keyed collection of values. -/
inductive TypedValue : Type where
  | scalar (v : ParsedValue)
  | obj (typeName : String) (version : SpecVersion) (props : List (String × TypedValue))
  | list (elems : List TypedValue)
  | kmap (elems : List (String × TypedValue))

/-- Modelled from the spec: the parse-error taxonomy (§7). -/
inductive ParseError : Type where
  | invalidInput
  | invalidStructure
  | unknownType (ns : TypeNamespace) (typeName : String) (version : SpecVersion)
  | versionMismatch (ns : TypeNamespace) (typeName : String) (version : SpecVersion)
  | missingRequiredProperty (typeName : String) (propName : String)
  | structureTooDeep
  deriving DecidableEq, Repr

/-- Modelled from the spec: the registration-error taxonomy — a
registration colliding with an existing name in the same
namespace+version. -/
inductive RegError : Type where
  | duplicateName (ns : TypeNamespace) (version : SpecVersion) (typeName : String)
  deriving DecidableEq, Repr

/-- Modelled from the spec: one version's TypeRegistry — four independent
namespace mappings from type-name to ObjectSchema (kept as association
lists). -/
structure TypeRegistry : Type where
  objects : List ObjectSchema
  observables : List ObjectSchema
  markings : List ObjectSchema
  extensions : List ObjectSchema
  deriving DecidableEq, Repr

/-- The schema list of one namespace. -/
def TypeRegistry.nsList (r : TypeRegistry) : TypeNamespace → List ObjectSchema
  | .objects => r.objects
  | .observables => r.observables
  | .markings => r.markings
  | .extensions => r.extensions

/-- Modelled from the spec: `TypeRegistry.lookup(namespace, typeName) ->
ObjectSchema | NotFound`. -/
def TypeRegistry.lookup (r : TypeRegistry) (ns : TypeNamespace) (typeName : String) :
    Option ObjectSchema :=
  (r.nsList ns).find? (fun s => s.typeName == typeName)

/-- Replace one namespace's schema list, leaving the other three untouched. -/
def TypeRegistry.withNs (r : TypeRegistry) (ns : TypeNamespace) (l : List ObjectSchema) :
    TypeRegistry :=
  match ns with
  | .objects => { r with objects := l }
  | .observables => { r with observables := l }
  | .markings => { r with markings := l }
  | .extensions => { r with extensions := l }

/-- Modelled from the spec: `TypeRegistry.insert(namespace, schema) ->
success | DuplicateName` — the only mutator; rejected (no overwrite) when
`typeName` already exists in that namespace. -/
def TypeRegistry.insert (r : TypeRegistry) (ns : TypeNamespace) (v : SpecVersion)
    (s : ObjectSchema) : Except RegError TypeRegistry :=
  match r.lookup ns s.typeName with
  | some _ => .error (.duplicateName ns v s.typeName)
  | none => .ok (r.withNs ns (s :: r.nsList ns))

/-- Modelled from the spec: the process-wide registry — one TypeRegistry
per SpecVersion. -/
structure Registry : Type where
  v20 : TypeRegistry
  v21 : TypeRegistry
  deriving DecidableEq, Repr

/-- Modelled from the spec: `registryFor(version) -> TypeRegistry` (never
fails). -/
def Registry.registryFor (r : Registry) : SpecVersion → TypeRegistry
  | .v20 => r.v20
  | .v21 => r.v21

/-- Replace one version's TypeRegistry. -/
def Registry.withVersion (r : Registry) (v : SpecVersion) (t : TypeRegistry) : Registry :=
  match v with
  | .v20 => { r with v20 := t }
  | .v21 => { r with v21 := t }

/-- Modelled from the spec: `registerCustom(namespace, version, typeName,
propertySchema, ...) -> Registry | DuplicateNameError` — inserts a new
ObjectSchema into one namespace of one SpecVersion's TypeRegistry,
rejecting collisions; other versions are unaffected by design. -/
def registerCustom (r : Registry) (ns : TypeNamespace) (v : SpecVersion)
    (s : ObjectSchema) : Except RegError Registry :=
  match (r.registryFor v).insert ns v s with
  | .error e => .error e
  | .ok t => .ok (r.withVersion v t)

/-- Field lookup in a decoded mapping (first binding wins). -/
def lookupField (m : List (String × ParsedValue)) (k : String) : Option ParsedValue :=
  match m with
  | [] => none
  | kv :: rest => if kv.fst == k then some kv.snd else lookupField rest k

/-- Modelled from the spec: read the type discriminator — the `type` field
of a decoded mapping, which must be a scalar string. -/
def getTypeName (m : List (String × ParsedValue)) : Option String :=
  match lookupField m "type" with
  | some (.scalar s) => some s
  | _ => none

/-- Whether a type name is registered in the same namespace of some
SpecVersion other than the given one (the trigger for
`VersionMismatchError`: a type known in some SpecVersion but not the
effective one). -/
def knownInOtherVersion (reg : Registry) (v : SpecVersion) (ns : TypeNamespace)
    (typeName : String) : Bool :=
  (SpecVersion.all.filter (fun v2 => v2 ≠ v)).any
    (fun v2 => ((reg.registryFor v2).lookup ns typeName).isSome)

/-- Outcome of type resolution: a registered schema, or the opaque
passthrough mode for unknown types under `allowCustom`. -/
inductive Resolution : Type where
  | known (s : ObjectSchema)
  | passthrough

/-- Modelled from the spec: parse configuration — the `allowCustom`
permit-unknown option and the recursion bound `maxDepth`. -/
structure ParseConfig : Type where
  allowCustom : Bool
  maxDepth : Nat
  deriving DecidableEq, Repr

/-- Modelled from the spec: the TypeResolver.  Requires the value be a
mapping with a `type` discriminator; looks the discriminator up in the
effective version's registry under the hinted namespace.  Not found: a
type known in another SpecVersion's same namespace is a
`VersionMismatchError`; otherwise `allowCustom` selects opaque passthrough
or `UnknownTypeError`. -/
def resolve (cfg : ParseConfig) (reg : Registry) (v : SpecVersion) (ns : TypeNamespace)
    (pv : ParsedValue) :
    Except ParseError (Resolution × String × List (String × ParsedValue)) :=
  match pv with
  | .map m =>
    match getTypeName m with
    | none => .error .invalidStructure
    | some tname =>
      match (reg.registryFor v).lookup ns tname with
      | some s => .ok (.known s, tname, m)
      | none =>
        if knownInOtherVersion reg v ns tname then
          .error (.versionMismatch ns tname v)
        else if cfg.allowCustom then
          .ok (.passthrough, tname, m)
        else
          .error (.unknownType ns tname v)
  | _ => .error .invalidStructure

/-- Modelled from the spec: the opaque passthrough TypedObject for an
unregistered type under `allowCustom` — all input fields carried
unresolved as scalars. -/
def passthroughObj (v : SpecVersion) (tname : String)
    (m : List (String × ParsedValue)) : TypedValue :=
  .obj tname v (m.map (fun kv => (kv.fst, .scalar kv.snd)))

/-- Resolve-and-build each element of a nested heterogeneous collection;
the first element failure aborts the whole collection. -/
def buildList (rb : ParsedValue → Except ParseError TypedValue) :
    List ParsedValue → Except ParseError (List TypedValue)
  | [] => .ok []
  | x :: xs =>
    match rb x with
    | .error e => .error e
    | .ok t =>
      match buildList rb xs with
      | .error e => .error e
      | .ok ts => .ok (t :: ts)

/-- Resolve-and-build each value of a nested keyed collection; the first
element failure aborts the whole collection. -/
def buildKeyed (rb : ParsedValue → Except ParseError TypedValue) :
    List (String × ParsedValue) → Except ParseError (List (String × TypedValue))
  | [] => .ok []
  | kv :: kvs =>
    match rb kv.snd with
    | .error e => .error e
    | .ok t =>
      match buildKeyed rb kvs with
      | .error e => .error e
      | .ok ts => .ok ((kv.fst, t) :: ts)

/-- Modelled from the spec: the RecursiveBuilder's field walk.  For each
declared field present in the mapping: scalar fields are copied verbatim;
nested fields are resolved and built through `rb` under the declared
namespace hint; absent fields produce nothing here (the required check is
a separate pass, per the spec). -/
def buildFields (rb : TypeNamespace → ParsedValue → Except ParseError TypedValue) :
    List PropDecl → List (String × ParsedValue) →
    Except ParseError (List (String × TypedValue))
  | [], _ => .ok []
  | p :: ps, m =>
    match lookupField m p.name with
    | none => buildFields rb ps m
    | some val =>
      match p.kind with
      | .scalar =>
        match buildFields rb ps m with
        | .error e => .error e
        | .ok rest => .ok ((p.name, .scalar val) :: rest)
      | .nestedObject hint =>
        match rb hint val with
        | .error e => .error e
        | .ok t =>
          match buildFields rb ps m with
          | .error e => .error e
          | .ok rest => .ok ((p.name, t) :: rest)
      | .nestedList hint =>
        match val with
        | .seq elems =>
          match buildList (rb hint) elems with
          | .error e => .error e
          | .ok ts =>
            match buildFields rb ps m with
            | .error e => .error e
            | .ok rest => .ok ((p.name, .list ts) :: rest)
        | _ => .error .invalidStructure
      | .nestedKeyedMap hint =>
        match val with
        | .map kvs =>
          match buildKeyed (rb hint) kvs with
          | .error e => .error e
          | .ok ts =>
            match buildFields rb ps m with
            | .error e => .error e
            | .ok rest => .ok ((p.name, .kmap ts) :: rest)
        | _ => .error .invalidStructure

/-- Modelled from the spec: after all fields are processed, verify every
required field produced a value; the first (in declaration order) required
field absent from the mapping is reported. -/
def firstMissingRequired : List PropDecl → List (String × ParsedValue) → Option String
  | [], _ => none
  | p :: ps, m =>
    if p.required && (lookupField m p.name).isNone then some p.name
    else firstMissingRequired ps m

/-- Modelled from the spec: fields present in the mapping but absent from
the schema are preserved as opaque scalar "extra" properties. -/
def extraFields (props : List PropDecl) (m : List (String × ParsedValue)) :
    List (String × TypedValue) :=
  (m.filter (fun kv => !(props.any (fun p => p.name == kv.fst)))).map
    (fun kv => (kv.fst, .scalar kv.snd))

/-- Modelled from the spec: `RecursiveBuilder.build(schema, rawMapping,
version) -> TypedObject | BuildError`: walk the declared fields, then
enforce required-field completeness, then assemble the TypedObject. -/
def buildObject (rb : TypeNamespace → ParsedValue → Except ParseError TypedValue)
    (v : SpecVersion) (schema : ObjectSchema) (m : List (String × ParsedValue)) :
    Except ParseError TypedValue :=
  match buildFields rb schema.props m with
  | .error e => .error e
  | .ok built =>
    match firstMissingRequired schema.props m with
    | some pname => .error (.missingRequiredProperty schema.typeName pname)
    | none => .ok (.obj schema.typeName v (built ++ extraFields schema.props m))

/-- Modelled from the spec: resolve a value and recursively build it, with
an explicit depth counter bounding recursion (`StructureTooDeepError` past
the limit).  One depth unit is consumed per object level, so the depth
needed equals the structural nesting depth of the input. -/
def resolveAndBuild (cfg : ParseConfig) (reg : Registry) (v : SpecVersion) :
    Nat → TypeNamespace → ParsedValue → Except ParseError TypedValue
  | 0, _, _ => .error .structureTooDeep
  | Nat.succ d, ns, pv =>
    match resolve cfg reg v ns pv with
    | .error e => .error e
    | .ok (.passthrough, tname, m) => .ok (passthroughObj v tname m)
    | .ok (.known schema, _, m) =>
      buildObject (fun ns2 pv2 => resolveAndBuild cfg reg v d ns2 pv2) v schema m

/-- Map a version-marker string to a SpecVersion. -/
def versionOfString : String → Option SpecVersion
  | "2.0" => some .v20
  | "2.1" => some .v21
  | _ => none

/-- Modelled from the spec: read the root's version marker field
(`spec_version`) when present. -/
def readMarker (pv : ParsedValue) : Option SpecVersion :=
  match pv with
  | .map m =>
    match lookupField m "spec_version" with
    | some (.scalar s) => versionOfString s
    | _ => none
  | _ => none

/-- Modelled from the spec: the effective version — the explicit argument
if given; else the root's version marker if present; else the designated
latest. -/
def determineVersion (explicitV : Option SpecVersion) (pv : ParsedValue) : SpecVersion :=
  match explicitV with
  | some v => v
  | none =>
    match readMarker pv with
    | some v => v
    | none => SpecVersion.latest

/-- Modelled from the spec: the parse entry point — determine the
effective version, then resolve and build from the root in the Objects
namespace (decoding raw text to a `ParsedValue` is the external
collaborator and is taken as already done). -/
def parse (cfg : ParseConfig) (reg : Registry) (explicitV : Option SpecVersion)
    (pv : ParsedValue) : Except ParseError TypedValue :=
  resolveAndBuild cfg reg (determineVersion explicitV pv) cfg.maxDepth .objects pv

/-! ### Shared fixtures for concrete witnesses -/

/-- The empty TypeRegistry. -/
def emptyTR : TypeRegistry := ⟨[], [], [], []⟩

/-- A registry with no registered types in either version. -/
def emptyRegistry : Registry := ⟨emptyTR, emptyTR⟩

/-! ### Registry helper lemmas -/

lemma nsList_withNs_same (r : TypeRegistry) (ns : TypeNamespace) (l : List ObjectSchema) :
    (r.withNs ns l).nsList ns = l := by
  cases ns <;> rfl

lemma nsList_withNs_other (r : TypeRegistry) (ns ns' : TypeNamespace)
    (l : List ObjectSchema) (h : ns' ≠ ns) :
    (r.withNs ns l).nsList ns' = r.nsList ns' := by
  cases ns <;> cases ns' <;> first | rfl | exact absurd rfl h

lemma registryFor_withVersion_same (r : Registry) (v : SpecVersion) (t : TypeRegistry) :
    (r.withVersion v t).registryFor v = t := by
  cases v <;> rfl

lemma registryFor_withVersion_other (r : Registry) (v v' : SpecVersion) (t : TypeRegistry)
    (h : v' ≠ v) :
    (r.withVersion v t).registryFor v' = r.registryFor v' := by
  cases v <;> cases v' <;> first | rfl | exact absurd rfl h

lemma registerCustom_ok_elim (r : Registry) (ns : TypeNamespace) (v : SpecVersion)
    (s : ObjectSchema) (r' : Registry) (h : registerCustom r ns v s = .ok r') :
    (r.registryFor v).lookup ns s.typeName = none ∧
    r' = r.withVersion v ((r.registryFor v).withNs ns (s :: (r.registryFor v).nsList ns)) := by
  unfold registerCustom TypeRegistry.insert at h
  cases hl : (r.registryFor v).lookup ns s.typeName with
  | some s0 => rw [hl] at h; exact absurd h (by simp)
  | none =>
    rw [hl] at h
    simp only [Except.ok.injEq] at h
    exact ⟨rfl, h.symm⟩

lemma registerCustom_ok_of_lookup_none (r : Registry) (ns : TypeNamespace) (v : SpecVersion)
    (s : ObjectSchema) (h : (r.registryFor v).lookup ns s.typeName = none) :
    registerCustom r ns v s =
      .ok (r.withVersion v ((r.registryFor v).withNs ns (s :: (r.registryFor v).nsList ns))) := by
  unfold registerCustom TypeRegistry.insert
  rw [h]

lemma registerCustom_new_list (r : Registry) (ns : TypeNamespace) (v : SpecVersion)
    (s : ObjectSchema) (r' : Registry) (h : registerCustom r ns v s = .ok r') :
    (r'.registryFor v).nsList ns = s :: (r.registryFor v).nsList ns := by
  obtain ⟨-, rfl⟩ := registerCustom_ok_elim r ns v s r' h
  rw [registryFor_withVersion_same, nsList_withNs_same]

lemma registerCustom_frame (r : Registry) (ns : TypeNamespace) (v : SpecVersion)
    (s : ObjectSchema) (r' : Registry) (h : registerCustom r ns v s = .ok r')
    (v' : SpecVersion) (ns' : TypeNamespace) (hne : ¬(v' = v ∧ ns' = ns)) :
    (r'.registryFor v').nsList ns' = (r.registryFor v').nsList ns' := by
  obtain ⟨-, rfl⟩ := registerCustom_ok_elim r ns v s r' h
  by_cases hv : v' = v
  · subst hv
    rw [registryFor_withVersion_same, nsList_withNs_other]
    intro hns
    exact hne ⟨rfl, hns⟩
  · rw [registryFor_withVersion_other _ _ _ _ hv]

lemma registerCustom_lookup_self (r : Registry) (ns : TypeNamespace) (v : SpecVersion)
    (s : ObjectSchema) (r' : Registry) (h : registerCustom r ns v s = .ok r') :
    (r'.registryFor v).lookup ns s.typeName = some s := by
  rw [TypeRegistry.lookup, registerCustom_new_list r ns v s r' h]
  simp [List.find?]

/-! ### Theorems about the claims -/

/-- C6: a second `registerCustom` call with the same
(namespace, version, typeName) triple returns `DuplicateNameError`, the
registry is left unchanged (the call returns an error and no new
registry), and the first registration stays intact: the type name still
resolves to the first registered schema. -/
theorem registerCustom_duplicate_rejected
    (r r' : Registry) (ns : TypeNamespace) (v : SpecVersion) (s1 s2 : ObjectSchema)
    (hname : s2.typeName = s1.typeName)
    (h1 : registerCustom r ns v s1 = .ok r') :
    registerCustom r' ns v s2 = .error (.duplicateName ns v s2.typeName) ∧
    (r'.registryFor v).lookup ns s1.typeName = some s1 := by
  have hl : (r'.registryFor v).lookup ns s1.typeName = some s1 :=
    registerCustom_lookup_self r ns v s1 r' h1
  refine ⟨?_, hl⟩
  unfold registerCustom TypeRegistry.insert
  rw [hname, hl]

/-- Witness for C6 at a concrete registry and schema. -/
theorem registerCustom_duplicate_rejected_witness :
    registerCustom ⟨⟨[], [⟨"x-new-object-type", []⟩], [], []⟩, ⟨[], [], [], []⟩⟩
        .observables .v20 ⟨"x-new-object-type", [⟨"prop", true, .scalar⟩]⟩ =
      .error (.duplicateName .observables .v20 "x-new-object-type") ∧
    (Registry.registryFor ⟨⟨[], [⟨"x-new-object-type", []⟩], [], []⟩, ⟨[], [], [], []⟩⟩
        .v20).lookup .observables "x-new-object-type" = some ⟨"x-new-object-type", []⟩ :=
  registerCustom_duplicate_rejected emptyRegistry _ .observables .v20
    ⟨"x-new-object-type", []⟩ ⟨"x-new-object-type", [⟨"prop", true, .scalar⟩]⟩ rfl rfl

/-- C7: registering a custom type into the Observables namespace of
version `v1` changes nothing else — lookups in the Objects namespace of
`v1` are unchanged, lookups in every namespace of every other version are
unchanged, and every (version, namespace) schema list other than
`(v1, Observables)` is exactly as before. -/
theorem registerCustom_namespace_isolation
    (r r' : Registry) (v1 : SpecVersion) (s : ObjectSchema)
    (h : registerCustom r .observables v1 s = .ok r') :
    (∀ tn, (r'.registryFor v1).lookup .objects tn = (r.registryFor v1).lookup .objects tn) ∧
    (∀ v2, v2 ≠ v1 → ∀ ns tn,
      (r'.registryFor v2).lookup ns tn = (r.registryFor v2).lookup ns tn) ∧
    (∀ v' ns', ¬(v' = v1 ∧ ns' = .observables) →
      (r'.registryFor v').nsList ns' = (r.registryFor v').nsList ns') := by
  have hframe := registerCustom_frame r .observables v1 s r' h
  refine ⟨?_, ?_, hframe⟩
  · intro tn
    rw [TypeRegistry.lookup, TypeRegistry.lookup, hframe v1 .objects (by simp)]
  · intro v2 hv2 ns tn
    rw [TypeRegistry.lookup, TypeRegistry.lookup, hframe v2 ns (by simp [hv2])]

/-- Witness for C7 at a concrete registration. -/
theorem registerCustom_namespace_isolation_witness :
    (∀ tn, (Registry.registryFor ⟨⟨[], [⟨"x-iso", []⟩], [], []⟩, ⟨[], [], [], []⟩⟩
          .v20).lookup .objects tn = (emptyRegistry.registryFor .v20).lookup .objects tn) ∧
    (∀ v2, v2 ≠ SpecVersion.v20 → ∀ ns tn,
      (Registry.registryFor ⟨⟨[], [⟨"x-iso", []⟩], [], []⟩, ⟨[], [], [], []⟩⟩
          v2).lookup ns tn = (emptyRegistry.registryFor v2).lookup ns tn) ∧
    (∀ v' ns', ¬(v' = SpecVersion.v20 ∧ ns' = TypeNamespace.observables) →
      (Registry.registryFor ⟨⟨[], [⟨"x-iso", []⟩], [], []⟩, ⟨[], [], [], []⟩⟩
          v').nsList ns' = (emptyRegistry.registryFor v').nsList ns') :=
  registerCustom_namespace_isolation emptyRegistry _ .v20 ⟨"x-iso", []⟩ rfl

/-- C10: the same type name may be registered into the Observables
namespace of two distinct SpecVersions; the second registration does not
collide with the first — name uniqueness is per (version, namespace)
pair. -/
theorem registerCustom_cross_version
    (r : Registry) (v1 v2 : SpecVersion) (s1 s2 : ObjectSchema)
    (hv : v1 ≠ v2) (_hname : s2.typeName = s1.typeName)
    (h1 : (r.registryFor v1).lookup .observables s1.typeName = none)
    (h2 : (r.registryFor v2).lookup .observables s2.typeName = none) :
    ∃ r1 r2, registerCustom r .observables v1 s1 = .ok r1 ∧
      registerCustom r1 .observables v2 s2 = .ok r2 := by
  have hr1 := registerCustom_ok_of_lookup_none r .observables v1 s1 h1
  have hfr := registerCustom_frame r .observables v1 s1 _ hr1 v2 .observables
    (fun hc => hv hc.1.symm)
  have h2' : ((r.withVersion v1 ((r.registryFor v1).withNs .observables
        (s1 :: (r.registryFor v1).nsList .observables))).registryFor v2).lookup
        .observables s2.typeName = none := by
    rw [TypeRegistry.lookup, hfr]
    exact h2
  exact ⟨_, _, hr1, registerCustom_ok_of_lookup_none _ .observables v2 s2 h2'⟩

/-- Witness for C10 at a concrete registry and schemas. -/
theorem registerCustom_cross_version_witness :
    ∃ r1 r2, registerCustom emptyRegistry .observables .v20 ⟨"x-cross", []⟩ = .ok r1 ∧
      registerCustom r1 .observables .v21 ⟨"x-cross", [⟨"prop", false, .scalar⟩]⟩ = .ok r2 :=
  registerCustom_cross_version emptyRegistry .v20 .v21 ⟨"x-cross", []⟩
    ⟨"x-cross", [⟨"prop", false, .scalar⟩]⟩ (by simp) rfl rfl rfl

/-- C2: the effective SpecVersion of a parse call is the explicit version
argument when given; otherwise the root's version marker when present;
otherwise the designated latest version — and `parse` performs all
resolution with exactly that version. -/
theorem parse_version_determination (cfg : ParseConfig) (reg : Registry)
    (explicitV : Option SpecVersion) (pv : ParsedValue) :
    parse cfg reg explicitV pv =
      resolveAndBuild cfg reg (determineVersion explicitV pv) cfg.maxDepth .objects pv ∧
    (∀ v, explicitV = some v → determineVersion explicitV pv = v) ∧
    (explicitV = none → ∀ v, readMarker pv = some v → determineVersion explicitV pv = v) ∧
    (explicitV = none → readMarker pv = none →
      determineVersion explicitV pv = SpecVersion.latest) := by
  refine ⟨rfl, ?_, ?_, ?_⟩
  · intro v hv; subst hv; rfl
  · intro hn v hm; subst hn; simp [determineVersion, hm]
  · intro hn hm; subst hn; simp [determineVersion, hm]

/-- Witness for C2 at concrete inputs exercising all three cases. -/
theorem parse_version_determination_witness :
    determineVersion (some .v20) (ParsedValue.map []) = .v20 ∧
    determineVersion none (ParsedValue.map [("spec_version", .scalar "2.1")]) = .v21 ∧
    determineVersion none (ParsedValue.map []) = SpecVersion.latest :=
  ⟨(parse_version_determination ⟨true, 1⟩ emptyRegistry (some .v20)
      (.map [])).2.1 .v20 rfl,
   (parse_version_determination ⟨true, 1⟩ emptyRegistry none
      (.map [("spec_version", .scalar "2.1")])).2.2.1 rfl .v21 rfl,
   (parse_version_determination ⟨true, 1⟩ emptyRegistry none (.map [])).2.2.2 rfl rfl⟩

/-! ### Resolution-level lemmas -/

lemma knownInOtherVersion_false (reg : Registry) (v : SpecVersion) (ns : TypeNamespace)
    (tn : String) (h : ∀ v', (reg.registryFor v').lookup ns tn = none) :
    knownInOtherVersion reg v ns tn = false := by
  cases v <;> simp [knownInOtherVersion, SpecVersion.all, List.filter, List.any, h]

lemma knownInOtherVersion_true (reg : Registry) (v v' : SpecVersion) (ns : TypeNamespace)
    (tn : String) (hv : v' ≠ v) (hs : ((reg.registryFor v').lookup ns tn).isSome = true) :
    knownInOtherVersion reg v ns tn = true := by
  cases v <;> cases v' <;>
    first
    | exact absurd rfl hv
    | simp [knownInOtherVersion, SpecVersion.all, List.filter, List.any, hs]

/-- C8: a type discriminator that is not registered in the effective
version's namespace but is registered in that namespace of another
SpecVersion makes the parse fail with `VersionMismatchError`. -/
theorem parse_version_mismatch (cfg : ParseConfig) (reg : Registry) (v v' : SpecVersion)
    (m : List (String × ParsedValue)) (tname : String) (d : Nat)
    (hd : cfg.maxDepth = d + 1)
    (ht : getTypeName m = some tname)
    (hnone : (reg.registryFor v).lookup .objects tname = none)
    (hv : v' ≠ v)
    (hsome : ((reg.registryFor v').lookup .objects tname).isSome = true) :
    parse cfg reg (some v) (.map m) = .error (.versionMismatch .objects tname v) := by
  have hk := knownInOtherVersion_true reg v v' .objects tname hv hsome
  show resolveAndBuild cfg reg v cfg.maxDepth .objects (.map m) = _
  rw [hd]
  simp [resolveAndBuild, resolve, ht, hnone, hk]

/-- Witness for C8: `foo` is registered in v2.0 only; parsing it with the
explicit version v2.1 fails with `VersionMismatchError`. -/
theorem parse_version_mismatch_witness :
    parse ⟨true, 1⟩ ⟨⟨[⟨"foo", []⟩], [], [], []⟩, emptyTR⟩ (some .v21)
        (.map [("type", .scalar "foo")]) =
      .error (.versionMismatch .objects "foo" .v21) :=
  parse_version_mismatch ⟨true, 1⟩ ⟨⟨[⟨"foo", []⟩], [], [], []⟩, emptyTR⟩ .v21 .v20
    [("type", .scalar "foo")] "foo" 0 rfl rfl rfl (by decide) rfl

/-- C5 counterexample: the claim promises an opaque passthrough for every
type discriminator not registered in the effective version's namespace
when `allowCustom = true`; but a discriminator that is registered in
another SpecVersion's same namespace (here `foo`, registered in v2.0 but
parsed under v2.1) produces `VersionMismatchError` instead of a
passthrough TypedObject. -/
theorem parse_unknown_passthrough_counterexample :
    parse ⟨true, 1⟩ ⟨⟨[⟨"foo", []⟩], [], [], []⟩, emptyTR⟩ (some .v21)
        (.map [("type", .scalar "foo")]) =
      .error (.versionMismatch .objects "foo" .v21) ∧
    parse ⟨true, 1⟩ ⟨⟨[⟨"foo", []⟩], [], [], []⟩, emptyTR⟩ (some .v21)
        (.map [("type", .scalar "foo")]) ≠
      .ok (passthroughObj .v21 "foo" [("type", .scalar "foo")]) :=
  ⟨rfl, fun h => nomatch h⟩

/-- C5 (amended): for a type discriminator registered in no SpecVersion's
namespace, `allowCustom = true` yields the opaque passthrough TypedObject
preserving all input fields as unresolved scalars, and `allowCustom =
false` makes the identical input fail with `UnknownTypeError`. -/
theorem parse_unknown_passthrough_or_reject (cfg : ParseConfig) (reg : Registry)
    (v : SpecVersion) (m : List (String × ParsedValue)) (tname : String) (d : Nat)
    (hd : cfg.maxDepth = d + 1)
    (ht : getTypeName m = some tname)
    (hnone : ∀ v', (reg.registryFor v').lookup .objects tname = none) :
    (cfg.allowCustom = true →
      parse cfg reg (some v) (.map m) = .ok (passthroughObj v tname m)) ∧
    (cfg.allowCustom = false →
      parse cfg reg (some v) (.map m) = .error (.unknownType .objects tname v)) := by
  have hk := knownInOtherVersion_false reg v .objects tname hnone
  constructor <;> intro hac <;>
    · show resolveAndBuild cfg reg v cfg.maxDepth .objects (.map m) = _
      rw [hd]
      simp [resolveAndBuild, resolve, ht, hnone v, hk, hac]

/-- Witness for the amended C5 at a concrete unregistered type, both with
`allowCustom = true` and with `allowCustom = false`. -/
theorem parse_unknown_passthrough_or_reject_witness :
    parse ⟨true, 1⟩ emptyRegistry (some .v21)
        (.map [("type", .scalar "x-who"), ("p", .scalar "1")]) =
      .ok (passthroughObj .v21 "x-who" [("type", .scalar "x-who"), ("p", .scalar "1")]) ∧
    parse ⟨false, 1⟩ emptyRegistry (some .v21)
        (.map [("type", .scalar "x-who"), ("p", .scalar "1")]) =
      .error (.unknownType .objects "x-who" .v21) :=
  ⟨(parse_unknown_passthrough_or_reject ⟨true, 1⟩ emptyRegistry .v21
      [("type", .scalar "x-who"), ("p", .scalar "1")] "x-who" 0 rfl rfl
      (fun v' => by cases v' <;> rfl)).1 rfl,
   (parse_unknown_passthrough_or_reject ⟨false, 1⟩ emptyRegistry .v21
      [("type", .scalar "x-who"), ("p", .scalar "1")] "x-who" 0 rfl rfl
      (fun v' => by cases v' <;> rfl)).2 rfl⟩

/-! ### Builder-level lemmas -/

lemma buildList_first_error (rb : ParsedValue → Except ParseError TypedValue)
    (xs : List ParsedValue) (x : ParsedValue) (ys : List ParsedValue) (e : ParseError)
    (hok : ∀ x' ∈ xs, ∃ t, rb x' = .ok t) (hx : rb x = .error e) :
    buildList rb (xs ++ x :: ys) = .error e := by
  induction xs with
  | nil => simp [buildList, hx]
  | cons a as ih =>
    obtain ⟨t, hta⟩ := hok a (by simp)
    rw [List.cons_append]
    simp [buildList, hta, ih (fun x' hx' => hok x' (by simp [hx']))]

lemma buildKeyed_first_error (rb : ParsedValue → Except ParseError TypedValue)
    (kvs : List (String × ParsedValue)) (kv : String × ParsedValue)
    (kvs2 : List (String × ParsedValue)) (e : ParseError)
    (hok : ∀ kv' ∈ kvs, ∃ t, rb kv'.2 = .ok t) (hx : rb kv.2 = .error e) :
    buildKeyed rb (kvs ++ kv :: kvs2) = .error e := by
  induction kvs with
  | nil => simp [buildKeyed, hx]
  | cons a as ih =>
    obtain ⟨t, hta⟩ := hok a (by simp)
    rw [List.cons_append]
    simp [buildKeyed, hta, ih (fun kv' hkv' => hok kv' (by simp [hkv']))]

lemma buildObject_error_of_fields (rb : TypeNamespace → ParsedValue → Except ParseError TypedValue)
    (v : SpecVersion) (s : ObjectSchema) (m : List (String × ParsedValue)) (e : ParseError)
    (h : buildFields rb s.props m = .error e) : buildObject rb v s m = .error e := by
  simp [buildObject, h]

/-- C4: parsing is atomic and fail-fast.  The failure of any one element
of a nested heterogeneous or keyed collection fails the whole collection
with the first error in depth-first order (elements after the failing one
are irrelevant); a field-walk failure fails the whole object build (no
partial TypedObject); and a parse call always returns either a fully
built TypedObject or an error. -/
theorem parse_atomic :
    (∀ (rb : ParsedValue → Except ParseError TypedValue) xs x ys (e : ParseError),
      (∀ x' ∈ xs, ∃ t, rb x' = .ok t) → rb x = .error e →
      buildList rb (xs ++ x :: ys) = .error e) ∧
    (∀ (rb : ParsedValue → Except ParseError TypedValue)
      (kvs : List (String × ParsedValue)) kv kvs2 (e : ParseError),
      (∀ kv' ∈ kvs, ∃ t, rb kv'.2 = .ok t) → rb kv.2 = .error e →
      buildKeyed rb (kvs ++ kv :: kvs2) = .error e) ∧
    (∀ (rb : TypeNamespace → ParsedValue → Except ParseError TypedValue)
      (nm : String) (req : Bool) (hint : TypeNamespace) elems ps m (e : ParseError),
      lookupField m nm = some (.seq elems) → buildList (rb hint) elems = .error e →
      buildFields rb (⟨nm, req, .nestedList hint⟩ :: ps) m = .error e) ∧
    (∀ (rb : TypeNamespace → ParsedValue → Except ParseError TypedValue)
      (nm : String) (req : Bool) (hint : TypeNamespace) kvs ps m (e : ParseError),
      lookupField m nm = some (.map kvs) → buildKeyed (rb hint) kvs = .error e →
      buildFields rb (⟨nm, req, .nestedKeyedMap hint⟩ :: ps) m = .error e) ∧
    (∀ rb v s m (e : ParseError), buildFields rb s.props m = .error e →
      buildObject rb v s m = .error e) ∧
    (∀ cfg reg ev pv, (∃ t, parse cfg reg ev pv = .ok t) ∨
      (∃ e, parse cfg reg ev pv = .error e)) := by
  refine ⟨buildList_first_error, buildKeyed_first_error, ?_, ?_, buildObject_error_of_fields, ?_⟩
  · intro rb nm req hint elems ps m e hlf hbl
    simp [buildFields, hlf, hbl]
  · intro rb nm req hint kvs ps m e hlf hbk
    simp [buildFields, hlf, hbk]
  · intro cfg reg ev pv
    cases hE : parse cfg reg ev pv with
    | ok t => exact Or.inl ⟨t, rfl⟩
    | error e => exact Or.inr ⟨e, rfl⟩

/-- Witness for C4: a failing element (depth exhausted) aborts a concrete
collection build, and a concrete parse call is total. -/
theorem parse_atomic_witness :
    buildList (resolveAndBuild ⟨true, 0⟩ emptyRegistry .v20 0 .objects)
        ([] ++ ParsedValue.scalar "z" :: []) = .error .structureTooDeep ∧
    ((∃ t, parse ⟨true, 1⟩ emptyRegistry none (.scalar "s") = .ok t) ∨
     (∃ e, parse ⟨true, 1⟩ emptyRegistry none (.scalar "s") = .error e)) :=
  ⟨parse_atomic.1 _ [] _ [] _ (by simp) rfl,
   parse_atomic.2.2.2.2.2 _ _ _ _⟩

/-! ### Required-field lemmas -/

lemma buildFields_scalar_ok (rb : TypeNamespace → ParsedValue → Except ParseError TypedValue)
    (props : List PropDecl) (m : List (String × ParsedValue))
    (hall : ∀ q ∈ props, q.kind = FieldKind.scalar) :
    ∃ l, buildFields rb props m = .ok l := by
  induction props with
  | nil => exact ⟨[], rfl⟩
  | cons p ps ih =>
    have hp := hall p (by simp)
    obtain ⟨l, hl⟩ := ih (fun q hq => hall q (by simp [hq]))
    cases hlf : lookupField m p.name with
    | none => exact ⟨l, by simp [buildFields, hlf, hl]⟩
    | some val =>
      exact ⟨(p.name, .scalar val) :: l, by simp [buildFields, hlf, hp, hl]⟩

lemma firstMissingRequired_eq (props : List PropDecl) (m : List (String × ParsedValue))
    (p : PropDecl) (hp : p ∈ props) (hreq : p.required = true)
    (hmiss : lookupField m p.name = none)
    (hother : ∀ q ∈ props, q.required = true → lookupField m q.name = none →
      q.name = p.name) :
    firstMissingRequired props m = some p.name := by
  induction props with
  | nil => exact absurd hp (List.not_mem_nil p)
  | cons q qs ih =>
    by_cases hc : (q.required && (lookupField m q.name).isNone) = true
    · have hc' := hc
      rw [Bool.and_eq_true, Option.isNone_iff_eq_none] at hc'
      have hn := hother q (by simp) hc'.1 hc'.2
      rw [firstMissingRequired, if_pos hc, hn]
    · have hpqs : p ∈ qs := by
        rcases List.mem_cons.mp hp with rfl | hp2
        · exact absurd (by rw [hreq, Option.isNone_iff_eq_none.mpr hmiss]; rfl) hc
        · exact hp2
      rw [firstMissingRequired, if_neg hc]
      exact ih hpqs (fun q2 hq2 => hother q2 (by simp [hq2]))

lemma firstMissingRequired_none (props : List PropDecl) (m : List (String × ParsedValue))
    (h : ∀ q ∈ props, q.required = true → (lookupField m q.name).isSome = true) :
    firstMissingRequired props m = none := by
  induction props with
  | nil => rfl
  | cons q qs ih =>
    have hc : (q.required && (lookupField m q.name).isNone) = false := by
      cases hr : q.required with
      | false => rfl
      | true =>
        have := h q (by simp) hr
        simp [Option.isNone_eq_false_iff, Option.isSome_iff_exists] at this ⊢
        exact this
    rw [firstMissingRequired, if_neg (by simp [hc])]
    exact ih (fun q2 hq2 => h q2 (by simp [hq2]))

/-- C3: a mapping missing a schema-required field fails the build with
`MissingRequiredPropertyError` naming that field, and the same mapping
with that field present as any scalar value builds successfully.  The
mapping is assumed to satisfy the rest of the (scalar-field) schema, so
that the named field is its only defect. -/
theorem build_missing_required
    (rb : TypeNamespace → ParsedValue → Except ParseError TypedValue)
    (v : SpecVersion) (s : ObjectSchema) (m : List (String × ParsedValue)) (p : PropDecl)
    (hall : ∀ q ∈ s.props, q.kind = FieldKind.scalar)
    (hp : p ∈ s.props) (hreq : p.required = true)
    (hmiss : lookupField m p.name = none)
    (hother : ∀ q ∈ s.props, q.required = true → lookupField m q.name = none →
      q.name = p.name) :
    buildObject rb v s m = .error (.missingRequiredProperty s.typeName p.name) ∧
    ∀ val, ∃ t, buildObject rb v s ((p.name, ParsedValue.scalar val) :: m) = .ok t := by
  constructor
  · obtain ⟨l, hl⟩ := buildFields_scalar_ok rb s.props m hall
    have hf := firstMissingRequired_eq s.props m p hp hreq hmiss hother
    simp [buildObject, hl, hf]
  · intro val
    obtain ⟨l, hl⟩ := buildFields_scalar_ok rb s.props ((p.name, .scalar val) :: m) hall
    have hf : firstMissingRequired s.props ((p.name, .scalar val) :: m) = none := by
      apply firstMissingRequired_none
      intro q hq hqr
      by_cases hqp : p.name = q.name
      · simp [lookupField, hqp]
      · have hne : lookupField m q.name ≠ none :=
          fun hn => hqp (hother q hq hqr hn).symm
        cases hlf : lookupField m q.name with
        | none => exact absurd hlf hne
        | some w =>
          simp [lookupField, hlf, show (p.name == q.name) = false from
            beq_eq_false_iff_ne.mpr hqp]
    exact ⟨.obj s.typeName v (l ++ extraFields s.props ((p.name, .scalar val) :: m)),
      by simp [buildObject, hl, hf]⟩

/-- Witness for C3: a `thing` schema requiring `name`; the mapping with
only `note` fails naming `name`, and adding `name` succeeds. -/
theorem build_missing_required_witness :
    buildObject (fun ns2 pv2 => resolveAndBuild ⟨true, 3⟩ emptyRegistry .v20 1 ns2 pv2) .v20
        ⟨"thing", [⟨"name", true, .scalar⟩, ⟨"note", false, .scalar⟩]⟩
        [("note", .scalar "n")] =
      .error (.missingRequiredProperty "thing" "name") ∧
    ∃ t, buildObject (fun ns2 pv2 => resolveAndBuild ⟨true, 3⟩ emptyRegistry .v20 1 ns2 pv2)
        .v20 ⟨"thing", [⟨"name", true, .scalar⟩, ⟨"note", false, .scalar⟩]⟩
        (("name", ParsedValue.scalar "x") :: [("note", .scalar "n")]) = .ok t := by
  have h := build_missing_required
    (fun ns2 pv2 => resolveAndBuild ⟨true, 3⟩ emptyRegistry .v20 1 ns2 pv2) .v20
    ⟨"thing", [⟨"name", true, .scalar⟩, ⟨"note", false, .scalar⟩]⟩
    [("note", .scalar "n")] ⟨"name", true, .scalar⟩
    (by decide) (by decide) rfl rfl
    (by
      intro q hq hr hn
      rcases List.mem_cons.mp hq with rfl | hq2
      · rfl
      · rcases List.mem_cons.mp hq2 with rfl | hq3
        · exact nomatch hr
        · exact absurd hq3 (List.not_mem_nil q))
  exact ⟨h.1, h.2 "x"⟩

/-! ### Depth-bound fixtures and lemmas -/

/-- A self-nesting schema: an optional `child` field holding a nested
object resolved in the Objects namespace. -/
def nodeSchema : ObjectSchema := ⟨"node", [⟨"child", false, .nestedObject .objects⟩]⟩

/-- A registry with `node` registered in the latest version's Objects
namespace. -/
def regNode : Registry := ⟨emptyTR, ⟨[nodeSchema], [], [], []⟩⟩

/-- A synthetically nested input: `nestedInput n` is a chain of `n + 1`
`node` objects linked through `child`. -/
def nestedInput : Nat → ParsedValue
  | 0 => .map [("type", .scalar "node")]
  | n + 1 => .map [("type", .scalar "node"), ("child", nestedInput n)]

lemma resolveAndBuild_node_step (cfg : ParseConfig) (d n : Nat) :
    resolveAndBuild cfg regNode .v21 (d + 1) .objects (nestedInput (n + 1)) =
      match resolveAndBuild cfg regNode .v21 d .objects (nestedInput n) with
      | .error e => .error e
      | .ok t => .ok (.obj "node" .v21 [("child", t), ("type", .scalar (.scalar "node"))]) := by
  have hlook : (regNode.registryFor .v21).lookup .objects "node" = some nodeSchema := rfl
  cases h : resolveAndBuild cfg regNode .v21 d .objects (nestedInput n) <;>
    simp [resolveAndBuild, resolve, nestedInput, getTypeName, lookupField, hlook,
      buildObject, buildFields, nodeSchema, firstMissingRequired, extraFields, h]

lemma resolveAndBuild_node_too_deep (cfg : ParseConfig) :
    ∀ k n, k ≤ n →
      resolveAndBuild cfg regNode .v21 k .objects (nestedInput n) =
        .error .structureTooDeep := by
  intro k
  induction k with
  | zero => intro n _; rfl
  | succ d ih =>
    intro n hk
    obtain ⟨m, rfl⟩ : ∃ m, n = m + 1 := ⟨n - 1, by omega⟩
    rw [resolveAndBuild_node_step, ih m (by omega)]

lemma resolveAndBuild_node_ok (cfg : ParseConfig) :
    ∀ n k, n < k →
      ∃ t, resolveAndBuild cfg regNode .v21 k .objects (nestedInput n) = .ok t := by
  intro n
  induction n with
  | zero =>
    intro k hk
    obtain ⟨d, rfl⟩ : ∃ d, k = d + 1 := ⟨k - 1, by omega⟩
    exact ⟨.obj "node" .v21 [("type", .scalar (.scalar "node"))], rfl⟩
  | succ m ih =>
    intro k hk
    obtain ⟨d, rfl⟩ : ∃ d, k = d + 1 := ⟨k - 1, by omega⟩
    obtain ⟨t, ht⟩ := ih d (by omega)
    exact ⟨.obj "node" .v21 [("child", t), ("type", .scalar (.scalar "node"))],
      by rw [resolveAndBuild_node_step, ht]⟩

lemma determineVersion_nestedInput (n : Nat) :
    determineVersion none (nestedInput n) = .v21 := by
  cases n <;> rfl

/-- C9: with `maxDepth = k`, an input whose structural nesting depth
exceeds `k` (a chain of `k + 1` nested objects) fails with
`StructureTooDeepError`, while the identical input one nesting level
shallower parses successfully; `parse` is a total function on arbitrarily
deep inputs by construction. -/
theorem parse_depth_bound (ac : Bool) (k : Nat) (hk : 1 ≤ k) :
    parse ⟨ac, k⟩ regNode none (nestedInput k) = .error .structureTooDeep ∧
    ∃ t, parse ⟨ac, k⟩ regNode none (nestedInput (k - 1)) = .ok t := by
  constructor
  · show resolveAndBuild ⟨ac, k⟩ regNode (determineVersion none (nestedInput k)) k
      .objects (nestedInput k) = .error .structureTooDeep
    rw [determineVersion_nestedInput]
    exact resolveAndBuild_node_too_deep ⟨ac, k⟩ k k le_rfl
  · obtain ⟨t, ht⟩ := resolveAndBuild_node_ok ⟨ac, k⟩ (k - 1) k (by omega)
    refine ⟨t, ?_⟩
    show resolveAndBuild ⟨ac, k⟩ regNode (determineVersion none (nestedInput (k - 1))) k
      .objects (nestedInput (k - 1)) = .ok t
    rw [determineVersion_nestedInput]
    exact ht

/-- Witness for C9 at `maxDepth = 2`: three nested nodes fail, two
succeed. -/
theorem parse_depth_bound_witness :
    parse ⟨true, 2⟩ regNode none (nestedInput 2) = .error .structureTooDeep ∧
    ∃ t, parse ⟨true, 2⟩ regNode none (nestedInput (2 - 1)) = .ok t :=
  parse_depth_bound true 2 (by decide)

/-! ### Heterogeneous-collection lemmas -/

lemma resolveAndBuild_succ (cfg : ParseConfig) (reg : Registry) (v : SpecVersion)
    (d : Nat) (ns : TypeNamespace) (pv : ParsedValue) :
    resolveAndBuild cfg reg v (d + 1) ns pv =
      match resolve cfg reg v ns pv with
      | .error e => .error e
      | .ok (.passthrough, tname, m) => .ok (passthroughObj v tname m)
      | .ok (.known schema, _, m) =>
        buildObject (fun ns2 pv2 => resolveAndBuild cfg reg v d ns2 pv2) v schema m := rfl

lemma buildObject_ok_shape (rb : TypeNamespace → ParsedValue → Except ParseError TypedValue)
    (v : SpecVersion) (s : ObjectSchema) (m : List (String × ParsedValue)) (t : TypedValue)
    (h : buildObject rb v s m = .ok t) : ∃ props, t = .obj s.typeName v props := by
  unfold buildObject at h
  cases hf : buildFields rb s.props m with
  | error e => rw [hf] at h; exact absurd h (by simp)
  | ok built =>
    rw [hf] at h
    cases hm : firstMissingRequired s.props m with
    | some pn => rw [hm] at h; exact absurd h (by simp)
    | none =>
      rw [hm] at h
      simp only [Except.ok.injEq] at h
      exact ⟨_, h.symm⟩

/-- C1: a container object whose schema declares an `objects` field as a
nested (heterogeneous or keyed) collection resolves every element
independently against its own registered schema: with two elements
carrying two different registered type names, the result is a TypedObject
whose collection field holds the two element TypedObjects, bearing those
type names, in the original input order.  The namespace hint `hns` is the
one the container schema declares for its elements, so the same statement
covers bundles of core objects and observed-data collections of
observables. -/
theorem parse_heterogeneous_collection
    (cfg : ParseConfig) (reg : Registry) (v : SpecVersion) (d : Nat)
    (hns : TypeNamespace) (cn kn a b : String) (sa sb : ObjectSchema)
    (ma mb : List (String × ParsedValue)) (ta tb2 : TypedValue)
    (hab : a ≠ b)
    (ha : (reg.registryFor v).lookup hns a = some sa) (hsa : sa.typeName = a)
    (hb : (reg.registryFor v).lookup hns b = some sb) (hsb : sb.typeName = b)
    (hma : getTypeName ma = some a) (hmb : getTypeName mb = some b)
    (hta : buildObject (fun n2 p2 => resolveAndBuild cfg reg v d n2 p2) v sa ma = .ok ta)
    (htb : buildObject (fun n2 p2 => resolveAndBuild cfg reg v d n2 p2) v sb mb = .ok tb2)
    (hcl : (reg.registryFor v).lookup .objects cn =
      some ⟨cn, [⟨"objects", true, .nestedList hns⟩]⟩)
    (hck : (reg.registryFor v).lookup .objects kn =
      some ⟨kn, [⟨"objects", true, .nestedKeyedMap hns⟩]⟩) :
    resolveAndBuild cfg reg v (d + 1 + 1) .objects
        (.map [("type", .scalar cn), ("objects", .seq [.map ma, .map mb])]) =
      .ok (.obj cn v [("objects", .list [ta, tb2]),
                      ("type", .scalar (.scalar cn))]) ∧
    resolveAndBuild cfg reg v (d + 1 + 1) .objects
        (.map [("type", .scalar kn),
               ("objects", .map [("0", .map ma), ("1", .map mb)])]) =
      .ok (.obj kn v [("objects", .kmap [("0", ta), ("1", tb2)]),
                      ("type", .scalar (.scalar kn))]) ∧
    sa ≠ sb ∧
    (∃ pa, ta = .obj a v pa) ∧
    (∃ pb, tb2 = .obj b v pb) := by
  have helemA : resolveAndBuild cfg reg v (d + 1) hns (.map ma) = .ok ta := by
    rw [resolveAndBuild_succ]
    have hres : resolve cfg reg v hns (.map ma) = .ok (.known sa, a, ma) := by
      simp [resolve, hma, ha]
    rw [hres]
    exact hta
  have helemB : resolveAndBuild cfg reg v (d + 1) hns (.map mb) = .ok tb2 := by
    rw [resolveAndBuild_succ]
    have hres : resolve cfg reg v hns (.map mb) = .ok (.known sb, b, mb) := by
      simp [resolve, hmb, hb]
    rw [hres]
    exact htb
  refine ⟨?_, ?_, ?_, ?_, ?_⟩
  · rw [resolveAndBuild_succ]
    have hres : resolve cfg reg v .objects
        (.map [("type", .scalar cn), ("objects", .seq [.map ma, .map mb])]) =
        .ok (.known ⟨cn, [⟨"objects", true, .nestedList hns⟩]⟩, cn,
          [("type", .scalar cn), ("objects", .seq [.map ma, .map mb])]) := by
      simp [resolve, getTypeName, lookupField, hcl]
    rw [hres]
    simp [buildObject, buildFields, lookupField, buildList, helemA, helemB,
      firstMissingRequired, extraFields]
  · rw [resolveAndBuild_succ]
    have hres : resolve cfg reg v .objects
        (.map [("type", .scalar kn), ("objects", .map [("0", .map ma), ("1", .map mb)])]) =
        .ok (.known ⟨kn, [⟨"objects", true, .nestedKeyedMap hns⟩]⟩, kn,
          [("type", .scalar kn), ("objects", .map [("0", .map ma), ("1", .map mb)])]) := by
      simp [resolve, getTypeName, lookupField, hck]
    rw [hres]
    simp [buildObject, buildFields, lookupField, buildKeyed, helemA, helemB,
      firstMissingRequired, extraFields]
  · intro h
    exact hab (by rw [← hsa, ← hsb, h])
  · obtain ⟨pa, hpa⟩ := buildObject_ok_shape _ _ _ _ _ hta
    exact ⟨pa, by rw [hpa, hsa]⟩
  · obtain ⟨pb, hpb⟩ := buildObject_ok_shape _ _ _ _ _ htb
    exact ⟨pb, by rw [hpb, hsb]⟩

/-! ### Fixtures for the heterogeneous-collection witness -/

/-- Registered element type `A` (no declared properties). -/
def schemaA : ObjectSchema := ⟨"A", []⟩

/-- Registered element type `B` (no declared properties). -/
def schemaB : ObjectSchema := ⟨"B", []⟩

/-- A bundle-like container: `objects` is a nested heterogeneous list. -/
def bundleSchema : ObjectSchema := ⟨"bundle", [⟨"objects", true, .nestedList .objects⟩]⟩

/-- An observed-data-like container: `objects` is a nested keyed map. -/
def odSchema : ObjectSchema :=
  ⟨"observed-data", [⟨"objects", true, .nestedKeyedMap .objects⟩]⟩

/-- Registry holding the two element types and the two containers. -/
def regHet : Registry := ⟨⟨[schemaA, schemaB, bundleSchema, odSchema], [], [], []⟩, emptyTR⟩

/-- Witness for C1 at a concrete bundle and observed-data input with
elements of types `A` and `B`. -/
theorem parse_heterogeneous_collection_witness :
    resolveAndBuild ⟨true, 9⟩ regHet .v20 (1 + 1 + 1) .objects
        (.map [("type", .scalar "bundle"),
               ("objects", .seq [.map [("type", .scalar "A")],
                                 .map [("type", .scalar "B")]])]) =
      .ok (.obj "bundle" .v20
        [("objects", .list [.obj "A" .v20 [("type", .scalar (.scalar "A"))],
                            .obj "B" .v20 [("type", .scalar (.scalar "B"))]]),
         ("type", .scalar (.scalar "bundle"))]) ∧
    resolveAndBuild ⟨true, 9⟩ regHet .v20 (1 + 1 + 1) .objects
        (.map [("type", .scalar "observed-data"),
               ("objects", .map [("0", .map [("type", .scalar "A")]),
                                 ("1", .map [("type", .scalar "B")])])]) =
      .ok (.obj "observed-data" .v20
        [("objects", .kmap [("0", .obj "A" .v20 [("type", .scalar (.scalar "A"))]),
                            ("1", .obj "B" .v20 [("type", .scalar (.scalar "B"))])]),
         ("type", .scalar (.scalar "observed-data"))]) ∧
    schemaA ≠ schemaB ∧
    (∃ pa, TypedValue.obj "A" .v20 [("type", .scalar (.scalar "A"))] = .obj "A" .v20 pa) ∧
    (∃ pb, TypedValue.obj "B" .v20 [("type", .scalar (.scalar "B"))] = .obj "B" .v20 pb) :=
  parse_heterogeneous_collection ⟨true, 9⟩ regHet .v20 1 .objects
    "bundle" "observed-data" "A" "B" schemaA schemaB
    [("type", .scalar "A")] [("type", .scalar "B")]
    (.obj "A" .v20 [("type", .scalar (.scalar "A"))])
    (.obj "B" .v20 [("type", .scalar (.scalar "B"))])
    (by decide) rfl rfl rfl rfl rfl rfl rfl rfl rfl rfl
